import Mathlib

/-!
Shallow embedding of the gsplat tetra/integral CUDA kernels
(`gsplat/cuda/csrc/ext.cpp`, the `gsplat` namespace of the tetra header):
ray-triangle and ray-tetrahedron intersection with their vjp routines are
modelled over exact rationals; the Gaussian line-integral routines are
modelled over the reals, with `erff` (an external libm routine) kept as an
explicit function parameter.
-/

namespace gsplat

/-- Three-component vector (`vec3<T>` of glm). -/
structure Vec3 (α : Type) where
  x : α
  y : α
  z : α
deriving DecidableEq

instance {α : Type} [Add α] : Add (Vec3 α) :=
  ⟨fun a b => ⟨a.x + b.x, a.y + b.y, a.z + b.z⟩⟩

instance {α : Type} [Sub α] : Sub (Vec3 α) :=
  ⟨fun a b => ⟨a.x - b.x, a.y - b.y, a.z - b.z⟩⟩

instance {α : Type} [Zero α] : Zero (Vec3 α) := ⟨⟨0, 0, 0⟩⟩

instance {α : Type} [Mul α] : HMul α (Vec3 α) (Vec3 α) :=
  ⟨fun c v => ⟨c * v.x, c * v.y, c * v.z⟩⟩

instance {α : Type} [Mul α] : HMul (Vec3 α) α (Vec3 α) :=
  ⟨fun v c => ⟨v.x * c, v.y * c, v.z * c⟩⟩

@[simp] theorem add_def {α : Type} [Add α] (a b : Vec3 α) :
    a + b = ⟨a.x + b.x, a.y + b.y, a.z + b.z⟩ := rfl

@[simp] theorem sub_def {α : Type} [Sub α] (a b : Vec3 α) :
    a - b = ⟨a.x - b.x, a.y - b.y, a.z - b.z⟩ := rfl

@[simp] theorem smul_def {α : Type} [Mul α] (c : α) (v : Vec3 α) :
    c * v = ⟨c * v.x, c * v.y, c * v.z⟩ := rfl

@[simp] theorem muls_def {α : Type} [Mul α] (c : α) (v : Vec3 α) :
    v * c = ⟨v.x * c, v.y * c, v.z * c⟩ := rfl

@[simp] theorem zero_def {α : Type} [Zero α] :
    (0 : Vec3 α) = ⟨0, 0, 0⟩ := rfl

/-- Dot product (`glm::dot`). -/
def dot {α : Type} [Add α] [Mul α] (a b : Vec3 α) : α :=
  a.x * b.x + a.y * b.y + a.z * b.z

/-- Cross product (`glm::cross`). -/
def cross {α : Type} [Sub α] [Mul α] (a b : Vec3 α) : Vec3 α :=
  ⟨a.y * b.z - a.z * b.y, a.z * b.x - a.x * b.z, a.x * b.y - a.y * b.x⟩

/-- Möller–Trumbore ray-triangle test (`ray_triangle_intersection`).
`none` models `return false` (the out-param `t` is then never written);
`some t` models `return true` with `t` written. -/
def ray_triangle_intersection (o d v0 v1 v2 : Vec3 ℚ) : Option ℚ :=
  let EPSILON : ℚ := 1e-8
  let e1 := v1 - v0
  let e2 := v2 - v0
  let h := cross d e2
  let a := dot e1 h
  if a > -EPSILON ∧ a < EPSILON then none -- parallel to the triangle
  else
    let f := 1 / a
    let s := o - v0
    let u := f * dot s h
    if u < 0 ∨ u > 1 then none -- outside the triangle
    else
      let q := cross s e1
      let v := f * dot d q
      if v < 0 ∨ u + v > 1 then none -- outside the triangle
      else some (f * dot e2 q)

/-- The out-params of `ray_tetra_intersection`, always written before the loop. -/
structure TetraHit where
  entry_face_idx : ℤ
  exit_face_idx : ℤ
  t_entry : ℚ
  t_exit : ℚ
deriving DecidableEq

/-- The initial sentinel state (`entry_face_idx = exit_face_idx = -1`,
`t_entry = 1e10`, `t_exit = -1e10`). -/
def tetraInit : TetraHit := ⟨-1, -1, 1e10, -1e10⟩

/-- The fixed `faces[4][3]` table: Face0=(v0,v1,v2), Face1=(v1,v2,v3),
Face2=(v2,v3,v0), Face3=(v3,v0,v1). -/
def tetraFace (v0 v1 v2 v3 : Vec3 ℚ) : Fin 4 → Vec3 ℚ × Vec3 ℚ × Vec3 ℚ
  | 0 => (v0, v1, v2)
  | 1 => (v1, v2, v3)
  | 2 => (v2, v3, v0)
  | 3 => (v3, v0, v1)

/-- The triangle test applied to face `i` of the tetrahedron. -/
def hitT (o d v0 v1 v2 v3 : Vec3 ℚ) (i : Fin 4) : Option ℚ :=
  ray_triangle_intersection o d (tetraFace v0 v1 v2 v3 i).1
    (tetraFace v0 v1 v2 v3 i).2.1 (tetraFace v0 v1 v2 v3 i).2.2

/-- One iteration of the face loop of `ray_tetra_intersection`:
on a face hit with value `t_isct`, the entry pair is updated when
`t_isct < t_entry` and then the exit pair when `t_isct > t_exit`. -/
def tetraStep (o d v0 v1 v2 v3 : Vec3 ℚ) (st : TetraHit) (i : Fin 4) : TetraHit :=
  match hitT o d v0 v1 v2 v3 i with
  | none => st
  | some t_isct =>
    let st1 := if t_isct < st.t_entry then
        { st with entry_face_idx := (i.val : ℤ), t_entry := t_isct } else st
    if t_isct > st1.t_exit then
      { st1 with exit_face_idx := (i.val : ℤ), t_exit := t_isct } else st1

/-- The unrolled (`GSPLAT_PRAGMA_UNROLL`) face loop of
`ray_tetra_intersection`, faces visited in order 0, 1, 2, 3. -/
def tetraLoop (o d v0 v1 v2 v3 : Vec3 ℚ) : TetraHit :=
  tetraStep o d v0 v1 v2 v3 (tetraStep o d v0 v1 v2 v3
    (tetraStep o d v0 v1 v2 v3 (tetraStep o d v0 v1 v2 v3 tetraInit 0) 1) 2) 3

/-- Function `ray_tetra_intersection`: the face loop, then `return false` exactly
when both indices are still negative. -/
def ray_tetra_intersection (o d v0 v1 v2 v3 : Vec3 ℚ) : Bool × TetraHit :=
  let st := tetraLoop o d v0 v1 v2 v3
  (if st.entry_face_idx < 0 ∧ st.exit_face_idx < 0 then false else true, st)

/-- Function `ray_triangle_intersection_vjp`: the three vertex-gradient reference
out-params (`accIn` carries their caller values) are assigned zero at the
top, so the caller values are never read and the result is a pure function
of the forward inputs and the upstream gradient `v_t`. -/
def ray_triangle_intersection_vjp (o d v0 v1 v2 : Vec3 ℚ) (v_t : ℚ)
    (accIn : Vec3 ℚ × Vec3 ℚ × Vec3 ℚ) : Vec3 ℚ × Vec3 ℚ × Vec3 ℚ :=
  let _ := accIn -- caller values of the out-params, overwritten below
  let v_v0 : Vec3 ℚ := 0
  let v_v1 : Vec3 ℚ := 0
  let v_v2 : Vec3 ℚ := 0
  let e1 := v1 - v0
  let e2 := v2 - v0
  let h := cross d e2
  let a := dot e1 h
  let f := 1 / a
  let s := o - v0
  let q := cross s e1
  let dot_e2_q := dot e2 q
  -- t = f * dot(e2, q)
  let v_f := v_t * dot_e2_q
  let v_e2 := v_t * q * f
  let v_q := v_t * e2 * f
  -- q = cross(s, e1)
  let v_s := cross e1 v_q
  let v_e1 := cross v_q s
  -- s = o - v0
  let v_v0 := v_v0 - v_s
  -- f = 1 / a
  let v_a := -v_f / (a * a)
  -- a = dot(e1, h)
  let v_e1 := v_e1 + v_a * h
  let v_h := v_a * e1
  -- h = cross(d, e2)
  let v_e2 := v_e2 + cross v_h d
  -- e2 = v2 - v0
  let v_v2 := v_v2 + v_e2
  let v_v0 := v_v0 - v_e2
  -- e1 = v1 - v0
  let v_v1 := v_v1 + v_e1
  let v_v0 := v_v0 - v_e1
  (v_v0, v_v1, v_v2)

/-- The four vertex-gradient out-params of the tetrahedron vjp routines. -/
structure TetraGrad where
  v_v0 : Vec3 ℚ
  v_v1 : Vec3 ℚ
  v_v2 : Vec3 ℚ
  v_v3 : Vec3 ℚ
deriving DecidableEq

/-- All-zero gradient accumulators. -/
def zeroGrad : TetraGrad := ⟨0, 0, 0, 0⟩

/-- The `faces[i]` array access of the vjp routines, indexed by a runtime
`int32_t`: in bounds (`some`) exactly for indices 0..3, out of bounds
(`none`, undefined behavior in the source) otherwise. -/
def facesTable (v0 v1 v2 v3 : Vec3 ℚ) (i : ℤ) :
    Option (Vec3 ℚ × Vec3 ℚ × Vec3 ℚ) :=
  if i = 0 then some (v0, v1, v2)
  else if i = 1 then some (v1, v2, v3)
  else if i = 2 then some (v2, v3, v0)
  else if i = 3 then some (v3, v0, v1)
  else none

/-- The `switch (face_idx)` scatter of a face's three vertex gradients into
the four accumulators; a value outside 0..3 falls through (no default case). -/
def scatterFace (i : ℤ) (g : Vec3 ℚ × Vec3 ℚ × Vec3 ℚ) (acc : TetraGrad) :
    TetraGrad :=
  if i = 0 then
    { acc with v_v0 := acc.v_v0 + g.1, v_v1 := acc.v_v1 + g.2.1,
               v_v2 := acc.v_v2 + g.2.2 }
  else if i = 1 then
    { acc with v_v1 := acc.v_v1 + g.1, v_v2 := acc.v_v2 + g.2.1,
               v_v3 := acc.v_v3 + g.2.2 }
  else if i = 2 then
    { acc with v_v2 := acc.v_v2 + g.1, v_v3 := acc.v_v3 + g.2.1,
               v_v0 := acc.v_v0 + g.2.2 }
  else if i = 3 then
    { acc with v_v3 := acc.v_v3 + g.1, v_v0 := acc.v_v0 + g.2.1,
               v_v1 := acc.v_v1 + g.2.2 }
  else acc

/-- Function `ray_tetra_intersection_vjp` (recomputing variant).  The accumulators are
reference out-params, so the model takes their caller values `acc`; on the
zero-upstream-gradient early return they are left untouched, otherwise they
are zero-initialized before the forward recomputation.  `none` models the
out-of-bounds `faces[...]` access (undefined behavior). -/
def ray_tetra_intersection_vjp (o d v0 v1 v2 v3 : Vec3 ℚ)
    (v_t_entry v_t_exit : ℚ) (acc : TetraGrad) : Option TetraGrad :=
  if v_t_entry = 0 ∧ v_t_exit = 0 then some acc
  else
    let acc := zeroGrad
    let r := ray_tetra_intersection o d v0 v1 v2 v3
    if r.1 = false then some acc
    else
      (facesTable v0 v1 v2 v3 r.2.entry_face_idx).bind fun fe =>
      (facesTable v0 v1 v2 v3 r.2.exit_face_idx).map fun fx =>
        let v_entry_faces :=
          ray_triangle_intersection_vjp o d fe.1 fe.2.1 fe.2.2 v_t_entry (0, 0, 0)
        let acc := scatterFace r.2.entry_face_idx v_entry_faces acc
        let v_exit_faces :=
          ray_triangle_intersection_vjp o d fx.1 fx.2.1 fx.2.2 v_t_exit (0, 0, 0)
        scatterFace r.2.exit_face_idx v_exit_faces acc

/-- Function `ray_tetra_intersection_vjp_shortcut`: identical scatter logic but the
face indices come from the caller, and the accumulators are never
zero-initialized — past the early return the routine accumulates into the
caller values `acc`. -/
def ray_tetra_intersection_vjp_shortcut (o d v0 v1 v2 v3 : Vec3 ℚ)
    (entry_face_idx exit_face_idx : ℤ) (v_t_entry v_t_exit : ℚ)
    (acc : TetraGrad) : Option TetraGrad :=
  if v_t_entry = 0 ∧ v_t_exit = 0 then some acc
  else
    (facesTable v0 v1 v2 v3 entry_face_idx).bind fun fe =>
    (facesTable v0 v1 v2 v3 exit_face_idx).map fun fx =>
      let v_entry_faces :=
        ray_triangle_intersection_vjp o d fe.1 fe.2.1 fe.2.2 v_t_entry (0, 0, 0)
      let acc := scatterFace entry_face_idx v_entry_faces acc
      let v_exit_faces :=
        ray_triangle_intersection_vjp o d fx.1 fx.2.1 fx.2.2 v_t_exit (0, 0, 0)
      scatterFace exit_face_idx v_exit_faces acc

/-! ### The Gaussian line-integral routines, over the reals

`erff` is an external libm routine, kept as an explicit function parameter;
`__expf` and `sqrtf` are modelled by `Real.exp` and `Real.sqrt`. -/

/-- The source's `#define PI 3.14159265358979323846`. -/
noncomputable def PI : ℝ := 3.14159265358979323846

/-- A 3×3 matrix (`mat3<T>` of glm), entry `mAB` at row `A`, column `B`. -/
structure Mat3 (α : Type) where
  m00 : α
  m01 : α
  m02 : α
  m10 : α
  m11 : α
  m12 : α
  m20 : α
  m21 : α
  m22 : α

instance {α : Type} [Add α] : Add (Mat3 α) :=
  ⟨fun A B => ⟨A.m00 + B.m00, A.m01 + B.m01, A.m02 + B.m02,
               A.m10 + B.m10, A.m11 + B.m11, A.m12 + B.m12,
               A.m20 + B.m20, A.m21 + B.m21, A.m22 + B.m22⟩⟩

instance {α : Type} [Zero α] : Zero (Mat3 α) := ⟨⟨0, 0, 0, 0, 0, 0, 0, 0, 0⟩⟩

/-- Matrix-vector product (`mat3<T> * vec3<T>`). -/
instance {α : Type} [Add α] [Mul α] : HMul (Mat3 α) (Vec3 α) (Vec3 α) :=
  ⟨fun A v => ⟨A.m00 * v.x + A.m01 * v.y + A.m02 * v.z,
               A.m10 * v.x + A.m11 * v.y + A.m12 * v.z,
               A.m20 * v.x + A.m21 * v.y + A.m22 * v.z⟩⟩

/-- Scalar-times-matrix (`T * mat3<T>`). -/
instance {α : Type} [Mul α] : HMul α (Mat3 α) (Mat3 α) :=
  ⟨fun c A => ⟨c * A.m00, c * A.m01, c * A.m02,
               c * A.m10, c * A.m11, c * A.m12,
               c * A.m20, c * A.m21, c * A.m22⟩⟩

/-- Matrix-times-scalar (`mat3<T> * T`). -/
instance {α : Type} [Mul α] : HMul (Mat3 α) α (Mat3 α) :=
  ⟨fun A c => ⟨A.m00 * c, A.m01 * c, A.m02 * c,
               A.m10 * c, A.m11 * c, A.m12 * c,
               A.m20 * c, A.m21 * c, A.m22 * c⟩⟩

/-- Outer product `glm::outerProduct(c, r) = c rᵀ`, the rank-one matrix with
`(c rᵀ) v = c * dot r v`. -/
def outerProduct {α : Type} [Mul α] (c r : Vec3 α) : Mat3 α :=
  ⟨c.x * r.x, c.x * r.y, c.x * r.z,
   c.y * r.x, c.y * r.y, c.y * r.z,
   c.z * r.x, c.z * r.y, c.z * r.z⟩

/-- Function `integral`: the closed-form segment integral, with `erf` the external
`erff` routine passed as a parameter. -/
noncomputable def integral (erf : ℝ → ℝ) (ray_o ray_d : Vec3 ℝ)
    (tmin tmax : ℝ) (mean3d : Vec3 ℝ) (precision : Mat3 ℝ) : ℝ :=
  let mu := mean3d - ray_o
  let aa := dot ray_d (precision * ray_d)
  if aa > 1e-6 then -- numerical issue
    let bb := dot ray_d (precision * mu)
    let beta1 := Real.sqrt (aa * 0.5)
    let beta2 := bb / aa
    0.5 * (erf (beta1 * (tmax - beta2)) - erf (beta1 * (tmin - beta2)))
  else 0

/-- Function `integral_opacity`: Beer-Lambert opacity of the full-line integral.
The `verbose`/NaN `printf` is a diagnostic side effect with no influence on
the returned value and is not modelled. -/
noncomputable def integral_opacity (density : ℝ) (ray_o ray_d : Vec3 ℝ)
    (mean3d : Vec3 ℝ) (precision : Mat3 ℝ) : ℝ :=
  if density = 0 then 0
  else
    let mu := mean3d - ray_o
    let rr := dot ray_d (precision * ray_d)
    if rr > 1e-6 then -- numerical issue
      let rr_inv := 1 / rr
      let dr := dot mu (precision * ray_d)
      let dd := dot mu (precision * mu)
      let cc := dd - dr * dr * rr_inv
      let _integral := 2 * Real.exp (-0.5 * cc) * Real.sqrt (0.5 * PI * rr_inv)
      1 - Real.exp (-density * _integral)
    else 0

/-- Function `integral_opacity_vjp`: the three gradient out-params are reference
accumulators; the routine never zero-initializes them, it only adds its
contributions (or leaves them untouched on the `density == 0` early return
and in the `rr <= 1e-6` guard branch).  `acc = (v_mean3d, v_precision,
v_density)` carries the caller values. -/
noncomputable def integral_opacity_vjp (density : ℝ) (ray_o ray_d : Vec3 ℝ)
    (mean3d : Vec3 ℝ) (precision : Mat3 ℝ) (v_opacity : ℝ)
    (acc : Vec3 ℝ × Mat3 ℝ × ℝ) : Vec3 ℝ × Mat3 ℝ × ℝ :=
  if density = 0 then acc
  else
    let mu := mean3d - ray_o
    let rr := dot ray_d (precision * ray_d)
    if rr > 1e-6 then -- numerical issue
      let v_mean3d := acc.1
      let v_precision := acc.2.1
      let v_density := acc.2.2
      let rr_inv := 1 / rr
      let dr := dot mu (precision * ray_d)
      let dd := dot mu (precision * mu)
      let cc := dd - dr * dr * rr_inv
      let _integral := 2 * Real.exp (-0.5 * cc) * Real.sqrt (0.5 * PI * rr_inv)
      let opacity := 1 - Real.exp (-density * _integral)
      let v_density := v_density + v_opacity * _integral * (1 - opacity)
      let v_integral := v_opacity * density * (1 - opacity)
      let v_cc := -0.5 * _integral * v_integral
      let v_rr := v_cc * rr_inv
      let v_dd := v_cc
      let v_dr := -2 * dr * rr_inv * v_cc
      let v_rr := v_rr + dr * dr * rr_inv * rr_inv * v_cc
      let v_mean3d := v_mean3d + precision * ray_d * v_dr -- from dr
      let v_mean3d := v_mean3d + ((2 : ℝ) * precision) * mu * v_dd -- from dd
      let v_precision := v_precision + outerProduct ray_d ray_d * v_rr -- from rr
      let v_precision := v_precision + outerProduct mu ray_d * v_dr -- from dr
      let v_precision := v_precision + outerProduct mu mu * v_dd -- from dd
      (v_mean3d, v_precision, v_density)
    else acc

/-! ### Helper lemmas -/

@[simp] theorem madd_def {α : Type} [Add α] (A B : Mat3 α) :
    A + B = ⟨A.m00 + B.m00, A.m01 + B.m01, A.m02 + B.m02,
             A.m10 + B.m10, A.m11 + B.m11, A.m12 + B.m12,
             A.m20 + B.m20, A.m21 + B.m21, A.m22 + B.m22⟩ := rfl

@[simp] theorem mzero_def {α : Type} [Zero α] :
    (0 : Mat3 α) = ⟨0, 0, 0, 0, 0, 0, 0, 0, 0⟩ := rfl

theorem facesTable_isSome (v0 v1 v2 v3 : Vec3 ℚ) (i : ℤ) :
    (facesTable v0 v1 v2 v3 i).isSome = true ↔ 0 ≤ i ∧ i ≤ 3 := by
  unfold facesTable
  split_ifs <;> simp <;> omega

theorem vadd_zero {α : Type} [AddZeroClass α] (v : Vec3 α) : v + 0 = v := by
  cases v; simp

theorem vzero_add {α : Type} [AddZeroClass α] (v : Vec3 α) : 0 + v = v := by
  cases v; simp

theorem vadd_assoc {α : Type} [AddSemigroup α] (a b c : Vec3 α) :
    a + b + c = a + (b + c) := by
  simp [add_assoc]

theorem madd_zero {α : Type} [AddZeroClass α] (A : Mat3 α) : A + 0 = A := by
  cases A; simp

theorem mzero_add {α : Type} [AddZeroClass α] (A : Mat3 α) : 0 + A = A := by
  cases A; simp

theorem madd_assoc {α : Type} [AddSemigroup α] (A B C : Mat3 α) :
    A + B + C = A + (B + C) := by
  simp [add_assoc]

/-- Componentwise sum of two tetra gradient accumulator records. -/
def addGrad (a b : TetraGrad) : TetraGrad :=
  ⟨a.v_v0 + b.v_v0, a.v_v1 + b.v_v1, a.v_v2 + b.v_v2, a.v_v3 + b.v_v3⟩

theorem addGrad_zero (a : TetraGrad) : addGrad a zeroGrad = a := by
  cases a with
  | mk p q r s => cases p; cases q; cases r; cases s; simp [addGrad, zeroGrad]

theorem scatterFace_addGrad (i : ℤ) (g : Vec3 ℚ × Vec3 ℚ × Vec3 ℚ)
    (a b : TetraGrad) :
    scatterFace i g (addGrad a b) = addGrad a (scatterFace i g b) := by
  unfold scatterFace addGrad
  split_ifs <;> simp [add_assoc]

/-- Lemma putting `tetraStep` in field-by-field form: the entry pair updates exactly when
`t < t_entry`, the exit pair exactly when `t > t_exit`, independently. -/
theorem tetraStep_eq (o d v0 v1 v2 v3 : Vec3 ℚ) (st : TetraHit) (i : Fin 4) :
    tetraStep o d v0 v1 v2 v3 st i =
      match hitT o d v0 v1 v2 v3 i with
      | none => st
      | some t =>
        ⟨if t < st.t_entry then (i.val : ℤ) else st.entry_face_idx,
         if t > st.t_exit then (i.val : ℤ) else st.exit_face_idx,
         if t < st.t_entry then t else st.t_entry,
         if t > st.t_exit then t else st.t_exit⟩ := by
  unfold tetraStep
  cases hitT o d v0 v1 v2 v3 i with
  | none => rfl
  | some t =>
    dsimp only
    by_cases h1 : t < st.t_entry <;> by_cases h2 : t > st.t_exit <;>
      simp [h1, h2]

/-- Invariant of the entry pair after the faces with index `< k` have been
processed: either no face so far hit below the `1e10` sentinel, or the pair
holds the first-in-order strict minimum of the hits so far. -/
def entryInv (o d v0 v1 v2 v3 : Vec3 ℚ) (k : ℕ) (st : TetraHit) : Prop :=
  (st.entry_face_idx = -1 ∧ st.t_entry = 1e10 ∧
    ∀ j : Fin 4, j.val < k → ∀ t, hitT o d v0 v1 v2 v3 j = some t →
      (1e10 : ℚ) ≤ t) ∨
  (∃ i : Fin 4, i.val < k ∧ st.entry_face_idx = (i.val : ℤ) ∧
    hitT o d v0 v1 v2 v3 i = some st.t_entry ∧
    ∀ j : Fin 4, j.val < k → ∀ t, hitT o d v0 v1 v2 v3 j = some t →
      st.t_entry ≤ t ∧ (j.val < i.val → st.t_entry < t))

/-- Dual invariant of the exit pair (first-in-order strict maximum over the
`-1e10` sentinel). -/
def exitInv (o d v0 v1 v2 v3 : Vec3 ℚ) (k : ℕ) (st : TetraHit) : Prop :=
  (st.exit_face_idx = -1 ∧ st.t_exit = -1e10 ∧
    ∀ j : Fin 4, j.val < k → ∀ t, hitT o d v0 v1 v2 v3 j = some t →
      t ≤ (-1e10 : ℚ)) ∨
  (∃ i : Fin 4, i.val < k ∧ st.exit_face_idx = (i.val : ℤ) ∧
    hitT o d v0 v1 v2 v3 i = some st.t_exit ∧
    ∀ j : Fin 4, j.val < k → ∀ t, hitT o d v0 v1 v2 v3 j = some t →
      t ≤ st.t_exit ∧ (j.val < i.val → t < st.t_exit))

theorem entryInv_step (o d v0 v1 v2 v3 : Vec3 ℚ) (k : Fin 4) (st : TetraHit)
    (h : entryInv o d v0 v1 v2 v3 k.val st) :
    entryInv o d v0 v1 v2 v3 (k.val + 1) (tetraStep o d v0 v1 v2 v3 st k) := by
  rw [tetraStep_eq]
  cases hk : hitT o d v0 v1 v2 v3 k with
  | none =>
    dsimp only
    rcases h with ⟨h1, h2, h3⟩ | ⟨i, hik, hie, hit, hall⟩
    · left
      refine ⟨h1, h2, fun j hj t ht => ?_⟩
      rcases Nat.lt_succ_iff_lt_or_eq.mp hj with hj | hj
      · exact h3 j hj t ht
      · rw [Fin.eq_of_val_eq hj, hk] at ht
        cases ht
    · right
      refine ⟨i, Nat.lt_succ_of_lt hik, hie, hit, fun j hj t ht => ?_⟩
      rcases Nat.lt_succ_iff_lt_or_eq.mp hj with hj | hj
      · exact hall j hj t ht
      · rw [Fin.eq_of_val_eq hj, hk] at ht
        cases ht
  | some tk =>
    unfold entryInv
    dsimp only
    by_cases hlt : tk < st.t_entry
    · simp only [if_pos hlt]
      right
      refine ⟨k, Nat.lt_succ_self _, rfl, hk, fun j hj t ht => ?_⟩
      rcases Nat.lt_succ_iff_lt_or_eq.mp hj with hj | hj
      · rcases h with ⟨h1, h2, h3⟩ | ⟨i0, hik0, hie0, hit0, hall0⟩
        · have h4 := h3 j hj t ht
          rw [h2] at hlt
          exact ⟨by linarith, fun _ => by linarith⟩
        · have h4 := (hall0 j hj t ht).1
          exact ⟨by linarith, fun _ => by linarith⟩
      · rw [Fin.eq_of_val_eq hj, hk] at ht
        cases ht
        exact ⟨le_refl _, fun hc => absurd (hj ▸ hc) (lt_irrefl _)⟩
    · simp only [if_neg hlt]
      have hge : st.t_entry ≤ tk := not_lt.mp hlt
      rcases h with ⟨h1, h2, h3⟩ | ⟨i0, hik0, hie0, hit0, hall0⟩
      · left
        refine ⟨h1, h2, fun j hj t ht => ?_⟩
        rcases Nat.lt_succ_iff_lt_or_eq.mp hj with hj | hj
        · exact h3 j hj t ht
        · rw [Fin.eq_of_val_eq hj, hk] at ht
          cases ht
          rw [h2] at hge
          exact hge
      · right
        refine ⟨i0, Nat.lt_succ_of_lt hik0, hie0, hit0, fun j hj t ht => ?_⟩
        rcases Nat.lt_succ_iff_lt_or_eq.mp hj with hj | hj
        · exact hall0 j hj t ht
        · rw [Fin.eq_of_val_eq hj, hk] at ht
          cases ht
          exact ⟨hge, fun hc => absurd (lt_trans (hj ▸ hc) hik0)
            (lt_irrefl _)⟩

theorem exitInv_step (o d v0 v1 v2 v3 : Vec3 ℚ) (k : Fin 4) (st : TetraHit)
    (h : exitInv o d v0 v1 v2 v3 k.val st) :
    exitInv o d v0 v1 v2 v3 (k.val + 1) (tetraStep o d v0 v1 v2 v3 st k) := by
  rw [tetraStep_eq]
  cases hk : hitT o d v0 v1 v2 v3 k with
  | none =>
    dsimp only
    rcases h with ⟨h1, h2, h3⟩ | ⟨i, hik, hie, hit, hall⟩
    · left
      refine ⟨h1, h2, fun j hj t ht => ?_⟩
      rcases Nat.lt_succ_iff_lt_or_eq.mp hj with hj | hj
      · exact h3 j hj t ht
      · rw [Fin.eq_of_val_eq hj, hk] at ht
        cases ht
    · right
      refine ⟨i, Nat.lt_succ_of_lt hik, hie, hit, fun j hj t ht => ?_⟩
      rcases Nat.lt_succ_iff_lt_or_eq.mp hj with hj | hj
      · exact hall j hj t ht
      · rw [Fin.eq_of_val_eq hj, hk] at ht
        cases ht
  | some tk =>
    unfold exitInv
    dsimp only
    by_cases hgt : tk > st.t_exit
    · simp only [if_pos hgt]
      right
      refine ⟨k, Nat.lt_succ_self _, rfl, hk, fun j hj t ht => ?_⟩
      rcases Nat.lt_succ_iff_lt_or_eq.mp hj with hj | hj
      · rcases h with ⟨h1, h2, h3⟩ | ⟨i0, hik0, hie0, hit0, hall0⟩
        · have h4 := h3 j hj t ht
          rw [h2] at hgt
          exact ⟨by linarith, fun _ => by linarith⟩
        · have h4 := (hall0 j hj t ht).1
          exact ⟨by linarith, fun _ => by linarith⟩
      · rw [Fin.eq_of_val_eq hj, hk] at ht
        cases ht
        exact ⟨le_refl _, fun hc => absurd (hj ▸ hc) (lt_irrefl _)⟩
    · simp only [if_neg hgt]
      have hge : tk ≤ st.t_exit := not_lt.mp hgt
      rcases h with ⟨h1, h2, h3⟩ | ⟨i0, hik0, hie0, hit0, hall0⟩
      · left
        refine ⟨h1, h2, fun j hj t ht => ?_⟩
        rcases Nat.lt_succ_iff_lt_or_eq.mp hj with hj | hj
        · exact h3 j hj t ht
        · rw [Fin.eq_of_val_eq hj, hk] at ht
          cases ht
          rw [h2] at hge
          exact hge
      · right
        refine ⟨i0, Nat.lt_succ_of_lt hik0, hie0, hit0, fun j hj t ht => ?_⟩
        rcases Nat.lt_succ_iff_lt_or_eq.mp hj with hj | hj
        · exact hall0 j hj t ht
        · rw [Fin.eq_of_val_eq hj, hk] at ht
          cases ht
          exact ⟨hge, fun hc => absurd (lt_trans (hj ▸ hc) hik0)
            (lt_irrefl _)⟩

theorem entryInv_loop (o d v0 v1 v2 v3 : Vec3 ℚ) :
    entryInv o d v0 v1 v2 v3 4 (tetraLoop o d v0 v1 v2 v3) := by
  have h0 : entryInv o d v0 v1 v2 v3 0 tetraInit :=
    Or.inl ⟨rfl, rfl, fun j hj => absurd hj (Nat.not_lt_zero _)⟩
  unfold tetraLoop
  exact entryInv_step o d v0 v1 v2 v3 3 _ (entryInv_step o d v0 v1 v2 v3 2 _
    (entryInv_step o d v0 v1 v2 v3 1 _ (entryInv_step o d v0 v1 v2 v3 0 _ h0)))

theorem exitInv_loop (o d v0 v1 v2 v3 : Vec3 ℚ) :
    exitInv o d v0 v1 v2 v3 4 (tetraLoop o d v0 v1 v2 v3) := by
  have h0 : exitInv o d v0 v1 v2 v3 0 tetraInit :=
    Or.inl ⟨rfl, rfl, fun j hj => absurd hj (Nat.not_lt_zero _)⟩
  unfold tetraLoop
  exact exitInv_step o d v0 v1 v2 v3 3 _ (exitInv_step o d v0 v1 v2 v3 2 _
    (exitInv_step o d v0 v1 v2 v3 1 _ (exitInv_step o d v0 v1 v2 v3 0 _ h0)))

/-- The returned flag is `true` exactly when some face is hit. -/
theorem tetra_hit_iff (o d v0 v1 v2 v3 : Vec3 ℚ) :
    (ray_tetra_intersection o d v0 v1 v2 v3).1 = true ↔
      ∃ i : Fin 4, ∃ t, hitT o d v0 v1 v2 v3 i = some t := by
  have hE := entryInv_loop o d v0 v1 v2 v3
  have hX := exitInv_loop o d v0 v1 v2 v3
  show (if (tetraLoop o d v0 v1 v2 v3).entry_face_idx < 0 ∧
      (tetraLoop o d v0 v1 v2 v3).exit_face_idx < 0 then false else true) =
      true ↔ _
  constructor
  · intro htrue
    by_cases hc : (tetraLoop o d v0 v1 v2 v3).entry_face_idx < 0 ∧
        (tetraLoop o d v0 v1 v2 v3).exit_face_idx < 0
    · rw [if_pos hc] at htrue
      cases htrue
    · rcases not_and_or.mp hc with hc | hc
      · rcases hE with ⟨h1, _, _⟩ | ⟨i, _, _, hit, _⟩
        · rw [h1] at hc
          norm_num at hc
        · exact ⟨i, _, hit⟩
      · rcases hX with ⟨h1, _, _⟩ | ⟨i, _, _, hit, _⟩
        · rw [h1] at hc
          norm_num at hc
        · exact ⟨i, _, hit⟩
  · rintro ⟨j, t, hjt⟩
    have hcond : ¬((tetraLoop o d v0 v1 v2 v3).entry_face_idx < 0 ∧
        (tetraLoop o d v0 v1 v2 v3).exit_face_idx < 0) := by
      rintro ⟨he, hx⟩
      rcases hE with ⟨_, _, h3⟩ | ⟨i, _, hie, _, _⟩
      · rcases hX with ⟨_, _, h3x⟩ | ⟨i, _, hix, _, _⟩
        · have t1 := h3 j j.isLt t hjt
          have t2 := h3x j j.isLt t hjt
          linarith
        · rw [hix] at hx
          omega
      · rw [hie] at he
        omega
    rw [if_neg hcond]

/-! ### The claims -/

/-- C1 (amended): `ray_tetra_intersection` returns true iff at least one of
the four faces is hit by `ray_triangle_intersection`; and provided every hit
face's t value lies strictly between the sentinels -1e10 and 1e10, on a hit
`t_entry` is the minimum and `t_exit` the maximum of the hit faces' t values
and, the comparisons being strict over the face order 0,1,2,3, an exact tie
keeps the earlier face index for both reductions (every face of strictly
smaller index than the recorded one has a strictly worse t value). -/
theorem C1_entry_exit_minmax (o d v0 v1 v2 v3 : Vec3 ℚ) :
    ((ray_tetra_intersection o d v0 v1 v2 v3).1 = true ↔
      ∃ i : Fin 4, ∃ t, hitT o d v0 v1 v2 v3 i = some t) ∧
    ((∀ i : Fin 4, ∀ t, hitT o d v0 v1 v2 v3 i = some t →
        -1e10 < t ∧ t < 1e10) →
      (ray_tetra_intersection o d v0 v1 v2 v3).1 = true →
      ((∃ i : Fin 4,
        (ray_tetra_intersection o d v0 v1 v2 v3).2.entry_face_idx =
          (i.val : ℤ) ∧
        hitT o d v0 v1 v2 v3 i =
          some (ray_tetra_intersection o d v0 v1 v2 v3).2.t_entry ∧
        ∀ j : Fin 4, ∀ t, hitT o d v0 v1 v2 v3 j = some t →
          (ray_tetra_intersection o d v0 v1 v2 v3).2.t_entry ≤ t ∧
          (j.val < i.val →
            (ray_tetra_intersection o d v0 v1 v2 v3).2.t_entry < t)) ∧
       (∃ i : Fin 4,
        (ray_tetra_intersection o d v0 v1 v2 v3).2.exit_face_idx =
          (i.val : ℤ) ∧
        hitT o d v0 v1 v2 v3 i =
          some (ray_tetra_intersection o d v0 v1 v2 v3).2.t_exit ∧
        ∀ j : Fin 4, ∀ t, hitT o d v0 v1 v2 v3 j = some t →
          t ≤ (ray_tetra_intersection o d v0 v1 v2 v3).2.t_exit ∧
          (j.val < i.val →
            t < (ray_tetra_intersection o d v0 v1 v2 v3).2.t_exit)))) := by
  refine ⟨tetra_hit_iff o d v0 v1 v2 v3, fun hrange htrue => ?_⟩
  have hE := entryInv_loop o d v0 v1 v2 v3
  have hX := exitInv_loop o d v0 v1 v2 v3
  have hex := (tetra_hit_iff o d v0 v1 v2 v3).mp htrue
  have hproj : (ray_tetra_intersection o d v0 v1 v2 v3).2 =
      tetraLoop o d v0 v1 v2 v3 := rfl
  rw [hproj]
  constructor
  · rcases hE with ⟨_, _, h3⟩ | ⟨i, _, hie, hit, hall⟩
    · exfalso
      obtain ⟨j, t, hjt⟩ := hex
      exact absurd (h3 j j.isLt t hjt) (not_le.mpr (hrange j t hjt).2)
    · exact ⟨i, hie, hit, fun j t ht => hall j j.isLt t ht⟩
  · rcases hX with ⟨_, _, h3⟩ | ⟨i, _, hix, hit, hall⟩
    · exfalso
      obtain ⟨j, t, hjt⟩ := hex
      exact absurd (h3 j j.isLt t hjt) (not_le.mpr (hrange j t hjt).1)
    · exact ⟨i, hix, hit, fun j t ht => hall j j.isLt t ht⟩

/-- C1 counterexample: with the ray origin pushed to z = 2e10, both face
hits have t ≥ 1e10, so the code returns a hit whose `t_entry` is the
untouched sentinel `1e10` — not the minimum (nor any) of the hit faces' t
values (2e10 and 2e10 − 4/5). -/
theorem C1_counterexample :
    (ray_tetra_intersection ⟨1/10, 1/10, 2e10⟩ ⟨0, 0, -1⟩
        ⟨0, 0, 0⟩ ⟨1, 0, 0⟩ ⟨0, 1, 0⟩ ⟨0, 0, 1⟩).1 = true ∧
    (ray_tetra_intersection ⟨1/10, 1/10, 2e10⟩ ⟨0, 0, -1⟩
        ⟨0, 0, 0⟩ ⟨1, 0, 0⟩ ⟨0, 1, 0⟩ ⟨0, 0, 1⟩).2.t_entry = 1e10 ∧
    hitT ⟨1/10, 1/10, 2e10⟩ ⟨0, 0, -1⟩
        ⟨0, 0, 0⟩ ⟨1, 0, 0⟩ ⟨0, 1, 0⟩ ⟨0, 0, 1⟩ 0 = some 2e10 ∧
    hitT ⟨1/10, 1/10, 2e10⟩ ⟨0, 0, -1⟩
        ⟨0, 0, 0⟩ ⟨1, 0, 0⟩ ⟨0, 1, 0⟩ ⟨0, 0, 1⟩ 1 = some (2e10 - 4/5) ∧
    hitT ⟨1/10, 1/10, 2e10⟩ ⟨0, 0, -1⟩
        ⟨0, 0, 0⟩ ⟨1, 0, 0⟩ ⟨0, 1, 0⟩ ⟨0, 0, 1⟩ 2 = none ∧
    hitT ⟨1/10, 1/10, 2e10⟩ ⟨0, 0, -1⟩
        ⟨0, 0, 0⟩ ⟨1, 0, 0⟩ ⟨0, 1, 0⟩ ⟨0, 0, 1⟩ 3 = none ∧
    (1e10 : ℚ) ≠ 2e10 ∧ (1e10 : ℚ) ≠ 2e10 - 4/5 := by
  refine ⟨?_, ?_, ?_, ?_, ?_, ?_, by norm_num, by norm_num⟩ <;>
    norm_num [ray_tetra_intersection, tetraLoop, tetraStep, hitT, tetraFace,
      tetraInit, ray_triangle_intersection, dot, cross]

/-- C1 witness: on the unit-tetrahedron scenario all hit t values (2 and
6/5) lie inside the sentinel range and the forward pass hits, so the
min/max/tie-break conclusions hold there. -/
theorem C1_entry_exit_minmax_witness :
    (∃ i : Fin 4,
      (ray_tetra_intersection ⟨1/10, 1/10, 2⟩ ⟨0, 0, -1⟩
          ⟨0, 0, 0⟩ ⟨1, 0, 0⟩ ⟨0, 1, 0⟩ ⟨0, 0, 1⟩).2.entry_face_idx =
        (i.val : ℤ) ∧
      hitT ⟨1/10, 1/10, 2⟩ ⟨0, 0, -1⟩ ⟨0, 0, 0⟩ ⟨1, 0, 0⟩ ⟨0, 1, 0⟩
          ⟨0, 0, 1⟩ i =
        some (ray_tetra_intersection ⟨1/10, 1/10, 2⟩ ⟨0, 0, -1⟩
          ⟨0, 0, 0⟩ ⟨1, 0, 0⟩ ⟨0, 1, 0⟩ ⟨0, 0, 1⟩).2.t_entry ∧
      ∀ j : Fin 4, ∀ t, hitT ⟨1/10, 1/10, 2⟩ ⟨0, 0, -1⟩ ⟨0, 0, 0⟩
          ⟨1, 0, 0⟩ ⟨0, 1, 0⟩ ⟨0, 0, 1⟩ j = some t →
        (ray_tetra_intersection ⟨1/10, 1/10, 2⟩ ⟨0, 0, -1⟩
          ⟨0, 0, 0⟩ ⟨1, 0, 0⟩ ⟨0, 1, 0⟩ ⟨0, 0, 1⟩).2.t_entry ≤ t ∧
        (j.val < i.val →
          (ray_tetra_intersection ⟨1/10, 1/10, 2⟩ ⟨0, 0, -1⟩
            ⟨0, 0, 0⟩ ⟨1, 0, 0⟩ ⟨0, 1, 0⟩ ⟨0, 0, 1⟩).2.t_entry < t)) ∧
    (∃ i : Fin 4,
      (ray_tetra_intersection ⟨1/10, 1/10, 2⟩ ⟨0, 0, -1⟩
          ⟨0, 0, 0⟩ ⟨1, 0, 0⟩ ⟨0, 1, 0⟩ ⟨0, 0, 1⟩).2.exit_face_idx =
        (i.val : ℤ) ∧
      hitT ⟨1/10, 1/10, 2⟩ ⟨0, 0, -1⟩ ⟨0, 0, 0⟩ ⟨1, 0, 0⟩ ⟨0, 1, 0⟩
          ⟨0, 0, 1⟩ i =
        some (ray_tetra_intersection ⟨1/10, 1/10, 2⟩ ⟨0, 0, -1⟩
          ⟨0, 0, 0⟩ ⟨1, 0, 0⟩ ⟨0, 1, 0⟩ ⟨0, 0, 1⟩).2.t_exit ∧
      ∀ j : Fin 4, ∀ t, hitT ⟨1/10, 1/10, 2⟩ ⟨0, 0, -1⟩ ⟨0, 0, 0⟩
          ⟨1, 0, 0⟩ ⟨0, 1, 0⟩ ⟨0, 0, 1⟩ j = some t →
        t ≤ (ray_tetra_intersection ⟨1/10, 1/10, 2⟩ ⟨0, 0, -1⟩
          ⟨0, 0, 0⟩ ⟨1, 0, 0⟩ ⟨0, 1, 0⟩ ⟨0, 0, 1⟩).2.t_exit ∧
        (j.val < i.val →
          t < (ray_tetra_intersection ⟨1/10, 1/10, 2⟩ ⟨0, 0, -1⟩
            ⟨0, 0, 0⟩ ⟨1, 0, 0⟩ ⟨0, 1, 0⟩ ⟨0, 0, 1⟩).2.t_exit)) :=
  (C1_entry_exit_minmax ⟨1/10, 1/10, 2⟩ ⟨0, 0, -1⟩
      ⟨0, 0, 0⟩ ⟨1, 0, 0⟩ ⟨0, 1, 0⟩ ⟨0, 0, 1⟩).2
    (by
      intro i t ht
      fin_cases i <;> revert ht <;>
        norm_num [hitT, tetraFace, ray_triangle_intersection, dot, cross] <;>
        first
        | (rintro rfl
           norm_num)
        | (intro hc
           simp at hc))
    (by norm_num [ray_tetra_intersection, tetraLoop, tetraStep, hitT,
      tetraFace, tetraInit, ray_triangle_intersection, dot, cross])

/-- C4: `ray_triangle_intersection` reports no-hit when `|a| < 1e-8` for
`a = e1·(d×e2)`; otherwise it rejects when `u = f·(s·h)` is outside `[0,1]`
or `v = f·(d·q) < 0` or `u+v > 1`; on acceptance it returns
`t = f·(e2·q)` without clamping to `t ≥ 0`, so for a concrete input it
returns a hit with negative `t = -1`. -/
theorem C4_triangle_characterization :
    (∀ o d v0 v1 v2 : Vec3 ℚ, ∀ t : ℚ,
      ray_triangle_intersection o d v0 v1 v2 = some t ↔
        (let e1 := v1 - v0
         let e2 := v2 - v0
         let h := cross d e2
         let a := dot e1 h
         let f := 1 / a
         let s := o - v0
         let u := f * dot s h
         let q := cross s e1
         let v := f * dot d q
         ¬ |a| < 1e-8 ∧ 0 ≤ u ∧ u ≤ 1 ∧ 0 ≤ v ∧ u + v ≤ 1 ∧
           t = f * dot e2 q)) ∧
    (ray_triangle_intersection ⟨1/10, 1/10, 2⟩ ⟨0, 0, 1⟩
        ⟨0, 0, 1⟩ ⟨1, 0, 1⟩ ⟨0, 1, 1⟩ = some (-1) ∧ (-1 : ℚ) < 0) := by
  refine ⟨fun o d v0 v1 v2 t => ?_,
    by norm_num [ray_triangle_intersection, dot, cross], by norm_num⟩
  simp only [ray_triangle_intersection, abs_lt]
  split_ifs with h1 h2 h3
  · simp only [false_iff, reduceCtorEq]
    rintro ⟨hn, -⟩
    exact hn ⟨by linarith [h1.1], h1.2⟩
  · simp only [false_iff, reduceCtorEq]
    rintro ⟨-, hu0, hu1, -⟩
    rcases h2 with h | h
    · exact absurd hu0 (by linarith)
    · exact absurd hu1 (by linarith)
  · simp only [false_iff, reduceCtorEq]
    rintro ⟨-, -, -, hv0, huv, -⟩
    rcases h3 with h | h
    · exact absurd hv0 (by linarith)
    · exact absurd huv (by linarith)
  · push_neg at h1 h2 h3
    simp only [Option.some.injEq]
    constructor
    · rintro rfl
      refine ⟨fun hc => ?_, h2.1, h2.2, h3.1, h3.2, rfl⟩
      exact absurd (h1 hc.1) (not_le.mpr hc.2)
    · rintro ⟨-, -, -, -, -, rfl⟩
      rfl

/-- C7: with both upstream gradients exactly zero, both tetra vjp variants
return immediately and leave the four vertex-gradient accumulators exactly
as provided by the caller. -/
theorem C7_zero_upstream_no_writes (o d v0 v1 v2 v3 : Vec3 ℚ)
    (entry_face_idx exit_face_idx : ℤ) (acc : TetraGrad) :
    ray_tetra_intersection_vjp o d v0 v1 v2 v3 0 0 acc = some acc ∧
    ray_tetra_intersection_vjp_shortcut o d v0 v1 v2 v3
      entry_face_idx exit_face_idx 0 0 acc = some acc := by
  exact ⟨by simp [ray_tetra_intersection_vjp],
    by simp [ray_tetra_intersection_vjp_shortcut]⟩

/-- C9: when at least one upstream gradient is nonzero, the shortcut vjp's
face-table accesses are in bounds (no undefined behavior, modelled as a
`some` result) exactly when both caller-supplied indices lie in 0..3. -/
theorem C9_shortcut_index_bounds (o d v0 v1 v2 v3 : Vec3 ℚ)
    (entry_face_idx exit_face_idx : ℤ) (v_t_entry v_t_exit : ℚ)
    (acc : TetraGrad) (h : ¬(v_t_entry = 0 ∧ v_t_exit = 0)) :
    (ray_tetra_intersection_vjp_shortcut o d v0 v1 v2 v3
        entry_face_idx exit_face_idx v_t_entry v_t_exit acc).isSome = true ↔
      (0 ≤ entry_face_idx ∧ entry_face_idx ≤ 3) ∧
      (0 ≤ exit_face_idx ∧ exit_face_idx ≤ 3) := by
  rw [← facesTable_isSome v0 v1 v2 v3 entry_face_idx,
    ← facesTable_isSome v0 v1 v2 v3 exit_face_idx]
  simp only [ray_tetra_intersection_vjp_shortcut, if_neg h]
  cases facesTable v0 v1 v2 v3 entry_face_idx <;>
    cases facesTable v0 v1 v2 v3 exit_face_idx <;> simp

/-- C9 witness: indices (1, 0) with `v_t_entry = 1 ≠ 0` are in bounds. -/
theorem C9_shortcut_index_bounds_witness :
    (ray_tetra_intersection_vjp_shortcut ⟨0, 0, 0⟩ ⟨0, 0, 1⟩
        ⟨0, 0, 0⟩ ⟨1, 0, 0⟩ ⟨0, 1, 0⟩ ⟨0, 0, 1⟩ 1 0 1 1 zeroGrad).isSome = true ↔
      (0 ≤ (1 : ℤ) ∧ (1 : ℤ) ≤ 3) ∧ (0 ≤ (0 : ℤ) ∧ (0 : ℤ) ≤ 3) :=
  C9_shortcut_index_bounds _ _ _ _ _ _ 1 0 1 1 zeroGrad (by norm_num)

/-- C8 (amended): on the axis-aligned unit tetrahedron, the ray from
(0.1, 0.1, 2) in direction (0, 0, -1) hits with entry face 1 at
`t_entry = 1.2` (not ≈1.8) and exit face 0 at `t_exit = 2`. -/
theorem C8_example_scenario :
    ray_tetra_intersection ⟨1/10, 1/10, 2⟩ ⟨0, 0, -1⟩
      ⟨0, 0, 0⟩ ⟨1, 0, 0⟩ ⟨0, 1, 0⟩ ⟨0, 0, 1⟩ = (true, ⟨1, 0, 6/5, 2⟩) := by
  norm_num [ray_tetra_intersection, tetraLoop, tetraStep, hitT, tetraFace, tetraInit,
    ray_triangle_intersection, dot, cross]

/-- C8 counterexample: in that scenario the code's `t_entry` is exactly
`6/5 = 1.2`, at distance `3/5` from the claimed `1.8`. -/
theorem C8_counterexample :
    (ray_tetra_intersection ⟨1/10, 1/10, 2⟩ ⟨0, 0, -1⟩
        ⟨0, 0, 0⟩ ⟨1, 0, 0⟩ ⟨0, 1, 0⟩ ⟨0, 0, 1⟩).2.t_entry ≠ 9/5 ∧
    |(ray_tetra_intersection ⟨1/10, 1/10, 2⟩ ⟨0, 0, -1⟩
        ⟨0, 0, 0⟩ ⟨1, 0, 0⟩ ⟨0, 1, 0⟩ ⟨0, 0, 1⟩).2.t_entry - 9/5| = 3/5 := by
  constructor <;>
    norm_num [ray_tetra_intersection, tetraLoop, tetraStep, hitT, tetraFace, tetraInit,
      ray_triangle_intersection, dot, cross]

/-- C2: whenever the forward pass reports a hit, the shortcut vjp fed the
forward pass's entry/exit indices computes exactly the same four vertex
gradients as the recomputing vjp, both starting from zero-initialized
accumulators. -/
theorem C2_shortcut_equivalence (o d v0 v1 v2 v3 : Vec3 ℚ)
    (v_t_entry v_t_exit : ℚ)
    (h : (ray_tetra_intersection o d v0 v1 v2 v3).1 = true) :
    ray_tetra_intersection_vjp_shortcut o d v0 v1 v2 v3
      (ray_tetra_intersection o d v0 v1 v2 v3).2.entry_face_idx
      (ray_tetra_intersection o d v0 v1 v2 v3).2.exit_face_idx
      v_t_entry v_t_exit zeroGrad =
    ray_tetra_intersection_vjp o d v0 v1 v2 v3 v_t_entry v_t_exit zeroGrad := by
  unfold ray_tetra_intersection_vjp ray_tetra_intersection_vjp_shortcut
  by_cases hz : v_t_entry = 0 ∧ v_t_exit = 0
  · simp [hz]
  · simp [hz, h]

/-- C2 witness: the unit-tetrahedron scenario hits, and there the two vjp
variants agree. -/
theorem C2_shortcut_equivalence_witness :
    ray_tetra_intersection_vjp_shortcut ⟨1/10, 1/10, 2⟩ ⟨0, 0, -1⟩
      ⟨0, 0, 0⟩ ⟨1, 0, 0⟩ ⟨0, 1, 0⟩ ⟨0, 0, 1⟩
      (ray_tetra_intersection ⟨1/10, 1/10, 2⟩ ⟨0, 0, -1⟩
        ⟨0, 0, 0⟩ ⟨1, 0, 0⟩ ⟨0, 1, 0⟩ ⟨0, 0, 1⟩).2.entry_face_idx
      (ray_tetra_intersection ⟨1/10, 1/10, 2⟩ ⟨0, 0, -1⟩
        ⟨0, 0, 0⟩ ⟨1, 0, 0⟩ ⟨0, 1, 0⟩ ⟨0, 0, 1⟩).2.exit_face_idx
      1 0 zeroGrad =
    ray_tetra_intersection_vjp ⟨1/10, 1/10, 2⟩ ⟨0, 0, -1⟩
      ⟨0, 0, 0⟩ ⟨1, 0, 0⟩ ⟨0, 1, 0⟩ ⟨0, 0, 1⟩ 1 0 zeroGrad :=
  C2_shortcut_equivalence _ _ _ _ _ _ 1 0
    (by norm_num [ray_tetra_intersection, tetraLoop, tetraStep, hitT,
      tetraFace, tetraInit, ray_triangle_intersection, dot, cross])

/-- C3 (amended): the triangle vjp assigns its accumulators to zero (its
result never depends on the caller values), and the recomputing tetra vjp
zero-initializes once past the zero-gradient early return; but the shortcut
tetra vjp and `integral_opacity_vjp` never zero-initialize — they accumulate
their contribution on top of the caller-provided accumulator values. -/
theorem C3_accumulator_initialization :
    (∀ o d v0 v1 v2 : Vec3 ℚ, ∀ v_t : ℚ, ∀ accIn : Vec3 ℚ × Vec3 ℚ × Vec3 ℚ,
      ray_triangle_intersection_vjp o d v0 v1 v2 v_t accIn =
      ray_triangle_intersection_vjp o d v0 v1 v2 v_t (0, 0, 0)) ∧
    (∀ o d v0 v1 v2 v3 : Vec3 ℚ, ∀ v_t_entry v_t_exit : ℚ, ∀ acc : TetraGrad,
      ¬(v_t_entry = 0 ∧ v_t_exit = 0) →
      ray_tetra_intersection_vjp o d v0 v1 v2 v3 v_t_entry v_t_exit acc =
      ray_tetra_intersection_vjp o d v0 v1 v2 v3 v_t_entry v_t_exit zeroGrad) ∧
    (∀ o d v0 v1 v2 v3 : Vec3 ℚ, ∀ entry_face_idx exit_face_idx : ℤ,
      ∀ v_t_entry v_t_exit : ℚ, ∀ acc : TetraGrad,
      ¬(v_t_entry = 0 ∧ v_t_exit = 0) →
      ray_tetra_intersection_vjp_shortcut o d v0 v1 v2 v3
        entry_face_idx exit_face_idx v_t_entry v_t_exit acc =
      Option.map (addGrad acc) (ray_tetra_intersection_vjp_shortcut o d v0 v1
        v2 v3 entry_face_idx exit_face_idx v_t_entry v_t_exit zeroGrad)) ∧
    (∀ density : ℝ, ∀ ray_o ray_d mean3d : Vec3 ℝ, ∀ precision : Mat3 ℝ,
      ∀ v_opacity : ℝ, ∀ acc : Vec3 ℝ × Mat3 ℝ × ℝ,
      integral_opacity_vjp density ray_o ray_d mean3d precision
          v_opacity acc =
        (acc.1 + (integral_opacity_vjp density ray_o ray_d mean3d precision
            v_opacity (0, 0, 0)).1,
         acc.2.1 + (integral_opacity_vjp density ray_o ray_d mean3d precision
            v_opacity (0, 0, 0)).2.1,
         acc.2.2 + (integral_opacity_vjp density ray_o ray_d mean3d precision
            v_opacity (0, 0, 0)).2.2)) := by
  refine ⟨fun o d v0 v1 v2 v_t accIn => rfl, ?_, ?_, ?_⟩
  · intro o d v0 v1 v2 v3 vte vtx acc hz
    unfold ray_tetra_intersection_vjp
    simp only [if_neg hz]
  · intro o d v0 v1 v2 v3 e x vte vtx acc hz
    unfold ray_tetra_intersection_vjp_shortcut
    simp only [if_neg hz]
    cases he : facesTable v0 v1 v2 v3 e with
    | none => rfl
    | some fe =>
      cases hx : facesTable v0 v1 v2 v3 x with
      | none => rfl
      | some fx =>
        simp only [Option.some_bind, Option.map_some']
        conv_lhs => rw [show acc = addGrad acc zeroGrad from
          (addGrad_zero acc).symm]
        rw [scatterFace_addGrad, scatterFace_addGrad]
  · intro density ray_o ray_d mean3d precision v_opacity acc
    by_cases hd : density = 0
    · simp only [integral_opacity_vjp, if_pos hd]
      refine Prod.ext ?_ (Prod.ext ?_ ?_) <;> dsimp only <;>
        first
        | rw [vadd_zero]
        | rw [madd_zero]
        | rw [add_zero]
    · by_cases hr : dot ray_d (precision * ray_d) > 1e-6
      · simp only [integral_opacity_vjp, if_neg hd, if_pos hr]
        refine Prod.ext ?_ (Prod.ext ?_ ?_) <;> dsimp only <;>
          simp only [vzero_add, vadd_assoc, mzero_add, madd_assoc,
            zero_add, add_assoc]
      · simp only [integral_opacity_vjp, if_neg hd, if_neg hr]
        refine Prod.ext ?_ (Prod.ext ?_ ?_) <;> dsimp only <;>
          first
          | rw [vadd_zero]
          | rw [madd_zero]
          | rw [add_zero]

/-- C3 counterexample: at a concrete input with nonzero upstream gradients,
the shortcut vjp's result depends on the caller-provided accumulator values
(the stale values leak into the result), so it does not zero-initialize. -/
theorem C3_counterexample :
    ray_tetra_intersection_vjp_shortcut ⟨1/10, 1/10, 2⟩ ⟨0, 0, -1⟩
        ⟨0, 0, 0⟩ ⟨1, 0, 0⟩ ⟨0, 1, 0⟩ ⟨0, 0, 1⟩ 1 0 1 1
        ⟨⟨1, 1, 1⟩, ⟨1, 1, 1⟩, ⟨1, 1, 1⟩, ⟨1, 1, 1⟩⟩ ≠
    ray_tetra_intersection_vjp_shortcut ⟨1/10, 1/10, 2⟩ ⟨0, 0, -1⟩
        ⟨0, 0, 0⟩ ⟨1, 0, 0⟩ ⟨0, 1, 0⟩ ⟨0, 0, 1⟩ 1 0 1 1 zeroGrad := by
  norm_num [ray_tetra_intersection_vjp_shortcut, facesTable, scatterFace,
    ray_triangle_intersection_vjp, dot, cross, zeroGrad]
  intro h
  simp at h

/-- C3 witness: the nonzero-upstream-gradient hypotheses of the amended
statement hold at `v_t_entry = v_t_exit = 1`. -/
theorem C3_accumulator_initialization_witness :
    (ray_tetra_intersection_vjp ⟨1/10, 1/10, 2⟩ ⟨0, 0, -1⟩
        ⟨0, 0, 0⟩ ⟨1, 0, 0⟩ ⟨0, 1, 0⟩ ⟨0, 0, 1⟩ 1 1
        ⟨⟨1, 1, 1⟩, ⟨1, 1, 1⟩, ⟨1, 1, 1⟩, ⟨1, 1, 1⟩⟩ =
      ray_tetra_intersection_vjp ⟨1/10, 1/10, 2⟩ ⟨0, 0, -1⟩
        ⟨0, 0, 0⟩ ⟨1, 0, 0⟩ ⟨0, 1, 0⟩ ⟨0, 0, 1⟩ 1 1 zeroGrad) ∧
    (ray_tetra_intersection_vjp_shortcut ⟨1/10, 1/10, 2⟩ ⟨0, 0, -1⟩
        ⟨0, 0, 0⟩ ⟨1, 0, 0⟩ ⟨0, 1, 0⟩ ⟨0, 0, 1⟩ 1 0 1 1
        ⟨⟨1, 1, 1⟩, ⟨1, 1, 1⟩, ⟨1, 1, 1⟩, ⟨1, 1, 1⟩⟩ =
      Option.map (addGrad ⟨⟨1, 1, 1⟩, ⟨1, 1, 1⟩, ⟨1, 1, 1⟩, ⟨1, 1, 1⟩⟩)
        (ray_tetra_intersection_vjp_shortcut ⟨1/10, 1/10, 2⟩ ⟨0, 0, -1⟩
          ⟨0, 0, 0⟩ ⟨1, 0, 0⟩ ⟨0, 1, 0⟩ ⟨0, 0, 1⟩ 1 0 1 1 zeroGrad)) :=
  ⟨C3_accumulator_initialization.2.1 _ _ _ _ _ _ 1 1 _ (by norm_num),
   C3_accumulator_initialization.2.2.1 _ _ _ _ _ _ 1 0 1 1 _ (by norm_num)⟩

@[simp] theorem mulVec_def {α : Type} [Add α] [Mul α] (A : Mat3 α)
    (v : Vec3 α) :
    A * v = ⟨A.m00 * v.x + A.m01 * v.y + A.m02 * v.z,
             A.m10 * v.x + A.m11 * v.y + A.m12 * v.z,
             A.m20 * v.x + A.m21 * v.y + A.m22 * v.z⟩ := rfl

/-- C6: `integral` returns 0 when `a = dir·(precision·dir) ≤ 1e-6`, and
otherwise `½·[erf(β1·(tmax−β2)) − erf(β1·(tmin−β2))]` with
`b = dir·(precision·μ)`, `β1 = sqrt(a/2)`, `β2 = b/a`, `μ = mean−origin`. -/
theorem C6_integral_characterization (erf : ℝ → ℝ) (ray_o ray_d : Vec3 ℝ)
    (tmin tmax : ℝ) (mean3d : Vec3 ℝ) (precision : Mat3 ℝ) :
    (dot ray_d (precision * ray_d) ≤ 1e-6 →
      integral erf ray_o ray_d tmin tmax mean3d precision = 0) ∧
    (dot ray_d (precision * ray_d) > 1e-6 →
      integral erf ray_o ray_d tmin tmax mean3d precision =
        1/2 * (erf (Real.sqrt (dot ray_d (precision * ray_d) / 2) *
            (tmax - dot ray_d (precision * (mean3d - ray_o)) /
              dot ray_d (precision * ray_d))) -
          erf (Real.sqrt (dot ray_d (precision * ray_d) / 2) *
            (tmin - dot ray_d (precision * (mean3d - ray_o)) /
              dot ray_d (precision * ray_d))))) := by
  constructor
  · intro hle
    simp only [integral, if_neg (not_lt.mpr hle)]
  · intro hgt
    simp only [integral, if_pos hgt]
    have h2 : dot ray_d (precision * ray_d) * 0.5 =
        dot ray_d (precision * ray_d) / 2 := by ring
    rw [h2]
    norm_num

/-- C6 witness: for the identity precision matrix and direction (1,0,0),
`a = 1 > 1e-6`, so the erf branch applies (shown here for `erf = 0`). -/
theorem C6_integral_characterization_witness :
    integral (fun _ => (0 : ℝ)) ⟨0, 0, 0⟩ ⟨1, 0, 0⟩ 0 1 ⟨0, 0, 0⟩
      ⟨1, 0, 0, 0, 1, 0, 0, 0, 1⟩ = 1/2 * (0 - 0) :=
  (C6_integral_characterization (fun _ => (0 : ℝ)) ⟨0, 0, 0⟩ ⟨1, 0, 0⟩ 0 1
    ⟨0, 0, 0⟩ ⟨1, 0, 0, 0, 1, 0, 0, 0, 1⟩).2 (by norm_num [dot])

/-- C5: `integral_opacity` returns 0 when the density is exactly 0, returns
0 when `rr = dir·(precision·dir) ≤ 1e-6`, and otherwise returns
`1 − exp(−density·integral)` with
`integral = 2·exp(−cc/2)·sqrt(π/(2·rr))`, `cc = dd − dr²/rr`. -/
theorem C5_integral_opacity_characterization (density : ℝ)
    (ray_o ray_d mean3d : Vec3 ℝ) (precision : Mat3 ℝ) :
    (density = 0 →
      integral_opacity density ray_o ray_d mean3d precision = 0) ∧
    (dot ray_d (precision * ray_d) ≤ 1e-6 →
      integral_opacity density ray_o ray_d mean3d precision = 0) ∧
    (density ≠ 0 → dot ray_d (precision * ray_d) > 1e-6 →
      integral_opacity density ray_o ray_d mean3d precision =
        (let mu := mean3d - ray_o
         let rr := dot ray_d (precision * ray_d)
         let dr := dot mu (precision * ray_d)
         let dd := dot mu (precision * mu)
         let cc := dd - dr ^ 2 / rr
         1 - Real.exp (-(density *
            (2 * Real.exp (-(cc / 2)) * Real.sqrt (PI / (2 * rr))))))) := by
  refine ⟨fun hd => by simp only [integral_opacity, if_pos hd], ?_, ?_⟩
  · intro hle
    by_cases hd : density = 0
    · simp only [integral_opacity, if_pos hd]
    · simp only [integral_opacity, if_neg hd, if_neg (not_lt.mpr hle)]
  · intro hd hgt
    simp only [integral_opacity, if_neg hd, if_pos hgt]
    set rr := dot ray_d (precision * ray_d) with hr
    set mu := mean3d - ray_o with hm
    set dr := dot mu (precision * ray_d) with hd2
    set dd := dot mu (precision * mu) with hd3
    have e1 : -0.5 * (dd - dr * dr * (1 / rr)) = -((dd - dr ^ 2 / rr) / 2) := by
      ring
    have e2 : 0.5 * PI * (1 / rr) = PI / (2 * rr) := by
      ring
    rw [e1, e2, neg_mul]

/-- C5 witness: with density 1, the identity precision matrix and direction
(1,0,0), both hypotheses of the closed-form branch hold. -/
theorem C5_integral_opacity_characterization_witness :
    integral_opacity 1 ⟨0, 0, 0⟩ ⟨1, 0, 0⟩ ⟨0, 0, 0⟩
      ⟨1, 0, 0, 0, 1, 0, 0, 0, 1⟩ =
      (let mu := (⟨0, 0, 0⟩ : Vec3 ℝ) - ⟨0, 0, 0⟩
       let rr := dot (⟨1, 0, 0⟩ : Vec3 ℝ)
         ((⟨1, 0, 0, 0, 1, 0, 0, 0, 1⟩ : Mat3 ℝ) * (⟨1, 0, 0⟩ : Vec3 ℝ))
       let dr := dot mu
         ((⟨1, 0, 0, 0, 1, 0, 0, 0, 1⟩ : Mat3 ℝ) * (⟨1, 0, 0⟩ : Vec3 ℝ))
       let dd := dot mu ((⟨1, 0, 0, 0, 1, 0, 0, 0, 1⟩ : Mat3 ℝ) * mu)
       let cc := dd - dr ^ 2 / rr
       1 - Real.exp (-((1 : ℝ) *
          (2 * Real.exp (-(cc / 2)) * Real.sqrt (PI / (2 * rr)))))) :=
  (C5_integral_opacity_characterization 1 ⟨0, 0, 0⟩ ⟨1, 0, 0⟩ ⟨0, 0, 0⟩
    ⟨1, 0, 0, 0, 1, 0, 0, 0, 1⟩).2.2 (by norm_num) (by norm_num [dot])

/-- C10: swapping the two segment bounds exactly negates `integral`, in both
the guard branch (0 = −0) and the erf branch. -/
theorem C10_integral_bound_swap (erf : ℝ → ℝ) (ray_o ray_d : Vec3 ℝ)
    (tmin tmax : ℝ) (mean3d : Vec3 ℝ) (precision : Mat3 ℝ) :
    integral erf ray_o ray_d tmin tmax mean3d precision =
      -integral erf ray_o ray_d tmax tmin mean3d precision := by
  simp only [integral]
  split_ifs
  · ring
  · ring

end gsplat
